import Mathlib

/-!
Verification of the content-addressed PDF ingestion and deduplication
pipeline: a shallow embedding of `src/utils/pdf_processor1.py` (the version
imported by `ingestion_nodes.py`), `src/utility/pdf_processor1.py` (the
enhanced version imported by `jira_tools/jira_mcp.py`), and
`src/data_preparation/image_data_prep.py`.

External collaborators (PyMuPDF text/image extraction, hashlib digests,
uuid5, the OpenAI describer call, the langchain text splitter, the Qdrant
client) are modelled as explicit parameters or as small state machines;
everything the repository's own code does with their results is translated
directly from the Python source.
-/

/-! ## Python value model

Metadata dictionaries in the pipeline hold strings, ints and nested dicts
(the saved metadata JSON).  `PyVal` models such a value; a dict is an
association list in insertion order, exactly like a Python `dict`. -/

inductive PyVal where
  | str (s : String)
  | int (n : Nat)
  | dict (fields : List (String × PyVal))

instance : Inhabited PyVal := ⟨.str ""⟩

/-- A Python dictionary with string keys: association list in insertion order. -/
abbrev PyDict := List (String × PyVal)

/-- Dictionary read: `d.get(k)` / `d[k]`; first binding wins (keys are unique). -/
def dictGet (d : PyDict) (k : String) : Option PyVal :=
  (d.find? (fun kv => kv.1 = k)).map (fun kv => kv.2)

/-- Dictionary write: `d[k] = v`.  Overwrites an existing binding in place,
otherwise appends at the end, matching Python insertion-order semantics. -/
def dictSet : PyDict → String → PyVal → PyDict
  | [], k, v => [(k, v)]
  | kv :: rest, k, v =>
    if kv.1 = k then (k, v) :: rest else kv :: dictSet rest k v

/-- `d.update(kvs)`: apply `dictSet` for each pair in order. -/
def dictUpdate (d : PyDict) (kvs : List (String × PyVal)) : PyDict :=
  kvs.foldl (fun acc kv => dictSet acc kv.1 kv.2) d

/-- Python `str()` of a value as used inside f-strings.  Every f-string in the
translated code formats a `str` or an `int`; a dict would print its `repr`,
which no identity-relevant call site ever does, so it is rendered with a
fixed marker here. -/
def pyStrOf : PyVal → String
  | .str s => s
  | .int n => Nat.repr n
  | .dict _ => "\x7b...\x7d"

/-- Python `needle in hay` on strings: the needle is a prefix of some
suffix of the haystack. -/
def pyInAux (needle : List Char) : List Char → Bool
  | [] => needle.isEmpty
  | c :: rest => needle.isPrefixOf (c :: rest) || pyInAux needle rest

def pyIn (needle hay : String) : Bool :=
  pyInAux needle.data hay.data

/-- Python `str.strip()`: drop leading and trailing whitespace. -/
def pyStrip (s : String) : String :=
  ⟨(((s.data.dropWhile Char.isWhitespace).reverse.dropWhile Char.isWhitespace).reverse)⟩

/-- Python truthiness of an optional string argument (`None` and `""` are falsy). -/
def strTruthy : Option String → Bool
  | none => false
  | some s => s ≠ ""

/-- Python `os.path.basename` for `/`-separated paths: everything after the
last separator. -/
def basename (p : String) : String :=
  ⟨(p.data.reverse.takeWhile (fun c => c ≠ '/')).reverse⟩

/-- Index of the last `'.'` in a character list, if any. -/
def lastDotIdx (l : List Char) : Option Nat :=
  ((List.range l.length).filter (fun i => l.getD i ' ' = '.')).getLast?

/-- Python `os.path.splitext` on a basename (no separators): split at the last
dot, unless every character before it is itself a dot (hidden files such as
`.bashrc` keep their name whole). -/
def splitext (p : String) : String × String :=
  match lastDotIdx p.data with
  | none => (p, "")
  | some i =>
    if (p.data.take i).all (fun c => c = '.') then (p, "")
    else (⟨p.data.take i⟩, ⟨p.data.drop i⟩)

/-! ## Decimal representation helpers

`Nat.repr` (the rendering of ints inside Python f-strings) is injective;
proved via the decimal value function as a left inverse. -/

/-- Decimal value of a digit list, most significant digit first, starting
from accumulator `a`. -/
def decValAux (a : Nat) (l : List Char) : Nat :=
  l.foldl (fun a c => 10 * a + (c.toNat - 48)) a

lemma decValAux_append (a : Nat) (l1 l2 : List Char) :
    decValAux a (l1 ++ l2) = decValAux (decValAux a l1) l2 := by
  simp [decValAux, List.foldl_append]

lemma toDigitsCore_shift :
    ∀ n : Nat, ∀ fuel ds, n < fuel →
      Nat.toDigitsCore 10 fuel n ds = Nat.toDigitsCore 10 (n + 1) n [] ++ ds := by
  intro n
  induction n using Nat.strong_induction_on with
  | _ n ih =>
    intro fuel ds hlt
    match fuel, hlt with
    | fuel + 1, hlt =>
      by_cases hq : n / 10 = 0
      · simp [Nat.toDigitsCore, hq]
      · have hn10 : 10 ≤ n := by
          by_contra hc
          exact hq (Nat.div_eq_of_lt (by omega))
        have hqn : n / 10 < n := Nat.div_lt_self (by omega) (by omega)
        have hqf : n / 10 < fuel := by omega
        rw [show Nat.toDigitsCore 10 (fuel + 1) n ds
              = Nat.toDigitsCore 10 fuel (n / 10) (Nat.digitChar (n % 10) :: ds) by
            simp [Nat.toDigitsCore, hq]]
        rw [show Nat.toDigitsCore 10 (n + 1) n []
              = Nat.toDigitsCore 10 n (n / 10) (Nat.digitChar (n % 10) :: []) by
            simp [Nat.toDigitsCore, hq]]
        rw [ih (n / 10) hqn fuel _ hqf, ih (n / 10) hqn n _ (by omega)]
        simp

lemma digitChar_toNat_sub (k : Nat) (hk : k < 10) :
    (Nat.digitChar k).toNat - 48 = k := by
  interval_cases k <;> decide

lemma decVal_toDigits : ∀ n : Nat, decValAux 0 (Nat.toDigits 10 n) = n := by
  intro n
  induction n using Nat.strong_induction_on with
  | _ n ih =>
    by_cases hq : n / 10 = 0
    · have hn : n < 10 := by
        by_contra hc
        have : n / 10 ≥ 1 := Nat.le_div_iff_mul_le (by omega) |>.2 (by omega)
        omega
      have h1 : Nat.toDigits 10 n = [Nat.digitChar (n % 10)] := by
        simp [Nat.toDigits, Nat.toDigitsCore, hq]
      rw [h1]
      have h2 := digitChar_toNat_sub (n % 10) (by omega)
      simp [decValAux, h2]
      omega
    · have hn10 : 10 ≤ n := by
        by_contra hc
        exact hq (Nat.div_eq_of_lt (by omega))
      have hqn : n / 10 < n := Nat.div_lt_self (by omega) (by omega)
      have hsplit : Nat.toDigits 10 n
          = Nat.toDigits 10 (n / 10) ++ [Nat.digitChar (n % 10)] := by
        show Nat.toDigitsCore 10 (n + 1) n [] = _
        rw [show Nat.toDigitsCore 10 (n + 1) n []
              = Nat.toDigitsCore 10 n (n / 10) (Nat.digitChar (n % 10) :: []) by
            simp [Nat.toDigitsCore, hq]]
        rw [toDigitsCore_shift (n / 10) n _ (by omega)]
        rfl
      rw [hsplit, decValAux_append, ih (n / 10) hqn]
      simp [decValAux, digitChar_toNat_sub (n % 10) (by omega)]
      omega

lemma natRepr_injective : Function.Injective Nat.repr := by
  intro m n h
  have hd : Nat.toDigits 10 m = Nat.toDigits 10 n := by
    have hdata := congrArg String.data h
    simpa [Nat.repr, List.asString] using hdata
  calc m = decValAux 0 (Nat.toDigits 10 m) := (decVal_toDigits m).symm
    _ = decValAux 0 (Nat.toDigits 10 n) := by rw [hd]
    _ = n := decVal_toDigits n

/-! ## Qdrant store model

A stored point carries an id and the langchain payload's `metadata` dict.
Filters are lists of `must` field conditions on `metadata.<key>`; every
`MatchValue` in the source is a string.  Store calls raise when the store is
unreachable, modelled with `Except`. -/

structure ScoredPoint where
  id : String
  metadata : PyDict

structure FieldCondition where
  key : String
  value : String

/-- A `models.Filter(must=...)` over `metadata.<key>` conditions. -/
abbrev StoreFilter := List FieldCondition

/-- One `FieldCondition(key="metadata.<k>", match=MatchValue(value=v))` holds of
a point when the metadata dict binds `k` to exactly the string `v`. -/
def condHolds (c : FieldCondition) (m : PyDict) : Bool :=
  match dictGet m c.key with
  | some (.str s) => s = c.value
  | _ => false

def filterHolds (f : StoreFilter) (m : PyDict) : Bool :=
  f.all (fun c => condHolds c m)

structure VectorStore where
  points : List ScoredPoint
  reachable : Bool := true

/-- `client.get_collection(...)`: returns collection info (here its size), or
raises when the store is unreachable. -/
def VectorStore.getCollection (s : VectorStore) : Except String Nat :=
  if s.reachable then .ok s.points.length else .error "store unreachable"

/-- `client.count(collection_name=..., count_filter=f)`. -/
def VectorStore.countPoints (s : VectorStore) (f : StoreFilter) : Except String Nat :=
  if s.reachable then
    .ok ((s.points.filter (fun p => filterHolds f p.metadata)).length)
  else .error "store unreachable"

/-- `client.scroll(...)`: first component of the returned pair, with an
optional `scroll_filter` and a `limit`. -/
def VectorStore.scrollPoints (s : VectorStore) (f : Option StoreFilter) (limit : Nat) :
    Except String (List ScoredPoint) :=
  if s.reachable then
    .ok (((s.points.filter (fun p => (f.map (fun g => filterHolds g p.metadata)).getD true)).take limit))
  else .error "store unreachable"

/-! ## Shared hasher and identity generator

`calculate_content_hash` and `generate_doc_id` are textually identical in
`src/utils/pdf_processor1.py` and `src/utility/pdf_processor1.py`, so they are
defined once.  The external `hashlib.sha256` hexdigest primitive is an
explicit parameter; updating the digest page by page equals digesting the
concatenation of the pages, so the extracted pages are joined.  The external
`uuid.uuid5(uuid.NAMESPACE_DNS, name)` primitive is likewise a parameter
applied to the exact name string the source builds. -/

/-- `calculate_content_hash(pdf_path)`: text extraction (`fitz.open` plus
`page.get_text` over all pages) is modelled by its outcome
`extracted_pages`; on any exception the function prints and returns `""`. -/
def calculate_content_hash (sha256_hexdigest : String → String)
    (extracted_pages : Except String (List String)) : String :=
  match extracted_pages with
  | .ok pages => sha256_hexdigest (String.join pages)
  | .error _ => ""

/-- `calculate_image_content_hash(image_data)` from
`src/utility/pdf_processor1.py`, with the raw bytes' digest outcome as the
`Except` parameter. -/
def calculate_image_content_hash (digest_outcome : Except String String) : String :=
  match digest_outcome with
  | .ok h => h
  | .error _ => ""

/-- Python dictionary access `d['k']` formatted into an f-string.  Missing keys
raise `KeyError` in Python; no translated call site ever formats a missing
key or a dict, and those cases map to fixed marker strings here. -/
def fmtKey (d : PyDict) (k : String) : String :=
  match dictGet d k with
  | some v => pyStrOf v
  | none => "<KeyError>"

/-- `d.get('k', default)` formatted into an f-string. -/
def fmtKeyD (d : PyDict) (k dflt : String) : String :=
  match dictGet d k with
  | some v => pyStrOf v
  | none => dflt

/-- `generate_doc_id(doc_metadata, index, doc_type)`: deterministic UUID from
the name string `f"{content_hash}_page{page_num}_{index}"` for text and
`f"{company}_{source_file}_{index}"` for images. -/
def generate_doc_id (uuid5 : String → String) (doc_metadata : PyDict) (index : Nat)
    (doc_type : String := "text") : String :=
  if doc_type = "text" then
    let content_hash := fmtKeyD doc_metadata "content_hash" ""
    uuid5 (content_hash ++ "_page" ++ fmtKey doc_metadata "page_num" ++ "_" ++ Nat.repr index)
  else
    uuid5 (fmtKeyD doc_metadata "company" "NA" ++ "_" ++ fmtKey doc_metadata "source_file"
      ++ "_" ++ Nat.repr index)

/-! ## ImageDescription (`src/data_preparation/image_data_prep.py`)

The external pieces (the filesystem, base64 encoding, the OpenAI chat call)
are a `DescriberEnv`; the class's own control flow is translated. -/

/-- A langchain `Document`. -/
structure Document where
  page_content : String
  metadata : PyDict

structure DescriberEnv where
  /-- `os.path.exists` for extracted image files. -/
  file_on_disk : String → Bool
  /-- `encode_image(image_path)`: base64 payload, or `none` on failure
  (missing file and exceptions both yield `None` in the source). -/
  encode_image : String → Option String
  /-- The `openai_client.chat.completions.create` call on an encoded image and
  its prompt context: the raw content string, or a raised exception. -/
  respond : String → String → Except String String

/-- `analyze_image_with_context(image_path, context_text)`: `none` is Python
`None`, the sentinel for a non-informative (`INVALID_IMAGE`) describer
verdict; error outcomes are returned as `"Error..."` strings, not raised. -/
def analyze_image_with_context (env : DescriberEnv) (image_path context_text : String) :
    Option String :=
  if ¬ env.file_on_disk image_path then some "Error: Image file not found"
  else
    match env.encode_image image_path with
    | none => some "Error: Failed to encode image"
    | some _image_base64 =>
      match env.respond image_path context_text with
      | .error e => some ("Error analyzing image: " ++ e)
      | .ok content =>
        let result := pyStrip content
        if pyIn "INVALID_IMAGE" result then none else some result

/-- The `for image_path, context_text in contexts.items()` loop of
`get_image_description`, carrying the `image_analyses` accumulator: entries
skipped by the `result is None or "INVALID_IMAGE" in str(result)` guard are
never added (`str` of a string is itself, so the second disjunct re-tests the
same substring check). -/
def get_image_description_loop (env : DescriberEnv) :
    List (String × String) → List (String × String) → List (String × String)
  | image_analyses, [] => image_analyses
  | image_analyses, (image_path, context_text) :: rest =>
    match analyze_image_with_context env image_path context_text with
    | none => get_image_description_loop env image_analyses rest
    | some result =>
      if pyIn "INVALID_IMAGE" result then
        get_image_description_loop env image_analyses rest
      else
        get_image_description_loop env (image_analyses ++ [(image_path, result)]) rest

/-- `get_image_description(contexts)`: the `image_analyses` mapping
accumulated over `contexts.items()`.  The source embeds this mapping as the
`image_analyses` entry of `analysis_data` and writes it to the
`*_analysis.json` side-car file; an ImageUnit for an image can only be built
from its entry here. -/
def get_image_description (env : DescriberEnv) (contexts : List (String × String)) :
    List (String × String) :=
  get_image_description_loop env [] contexts

/-- `get_image_data(image_path, caption, company)` with `self.pdf_path` passed
explicitly.  The `try` body cannot raise (every index is guarded), so the
`except` branch is dead and not modelled. -/
def get_image_data (pdf_path image_path : String) (caption : PyVal) (company : String) :
    PyDict :=
  let path_parts := ((image_path.replace "\\" "/").splitOn "/")
  let filename := (path_parts.getLast?).getD ""
  let pagenumber :=
    if pyIn "_p" filename then
      ((((filename.splitOn "_p").getD 1 "").splitOn "_").getD 0 "")
    else "1"
  let image_xref :=
    if pyIn "_" filename then
      (if (filename.splitOn "_").length > 1 then (filename.splitOn "_").getD 1 "" else "0")
    else "0"
  let file_name := (basename pdf_path).replace ".pdf" ""
  let image_source_in_file := file_name ++ "-page" ++ pagenumber ++ "-" ++ image_xref
  [("source_file", .str pdf_path),
   ("image_source_in_file", .str image_source_in_file),
   ("image", .str image_path),
   ("company", .str company),
   ("type", .str "image"),
   ("page_num", .str pagenumber),
   ("caption", caption)]

/-- `getRetriever(json_file_path, company)`: the source loads the JSON file at
`json_file_path` and iterates its top-level `(image_path, caption)` items;
`image_descriptions` is that loaded top-level dict (`json.dump`/`json.load`
round-trip the dicts written by the callers identically). -/
def getRetriever (pdf_path : String) (image_descriptions : PyDict) (company : String) :
    List Document :=
  image_descriptions.map fun kv =>
    { page_content := "This is an image with the caption: " ++ pyStrOf kv.2
      metadata := get_image_data pdf_path kv.1 kv.2 company }

/-! ## The active orchestrator (`src/utils/pdf_processor1.py`)

`process_pdf_and_stream` is modelled as the list of its observable actions:
yielded progress events, the metadata JSON write, and the two
`add_documents` store writes.  Debug `print` calls are not observable and are
omitted.  External inputs (file existence, extracted page texts, the computed
content hash, `get_image_information()`'s result) are a `PdfInput`;
module-external services (`uuid5`, the langchain splitter, `datetime.now`)
are a `RunEnv`. -/

inductive StreamAction where
  | emit (msg : String)
  | add_text_documents (chunks : List Document) (ids : List String)
  | save_metadata_json (path : String) (contents : PyDict)
  | add_image_documents (docs : List Document) (ids : List String)

structure PdfInput where
  path : String
  /-- `os.path.exists(uploaded_pdf_path)`. -/
  file_on_disk : Bool
  /-- `page.get_text("text")` for each page of the opened document. -/
  pages : List String
  /-- The value `calculate_content_hash(uploaded_pdf_path)` computes for this
  file (`""` when extraction failed). -/
  content_hash : String
  /-- `ImageDescription(...).get_image_information()`: extracted image path →
  nearby context text. -/
  image_info : List (String × String)

structure RunEnv where
  /-- `str(uuid.uuid5(uuid.NAMESPACE_DNS, name))`. -/
  uuid5 : String → String
  /-- `RecursiveCharacterTextSplitter.from_tiktoken_encoder(chunk_size=1000,
  chunk_overlap=100).split_documents`. -/
  split_documents : List Document → List Document
  /-- `str(datetime.now())` during this run. -/
  now : String

/-- The per-page `Document` list the text section builds: pages whose
stripped text is empty are dropped, the rest carry the standard metadata. -/
def buildPageDocuments (pages : List String)
    (source_file_name company_name content_hash now : String) : List Document :=
  pages.enum.filterMap fun pt =>
    let page_num := pt.1
    let text := pt.2
    if pyStrip text ≠ "" then
      some { page_content := text
             metadata := [("source_file", .str source_file_name),
                          ("page_num", .int (page_num + 1)),
                          ("company", .str company_name),
                          ("content_type", .str "text"),
                          ("content_hash", .str content_hash),
                          ("ingestion_timestamp", .str now)] }
    else none

/-- `get_image_information()`'s string-valued dict as a `PyDict`. -/
def imageInfoDict (image_info : List (String × String)) : PyDict :=
  image_info.map fun pc => (pc.1, .str pc.2)

namespace Utils

/-- The `search_filter` built by `check_document_exists`: always
`content_type`, then `content_hash` when that argument is truthy, otherwise
the `source_file` fallback. -/
def searchFilter (source_file_name doc_type : String) (content_hash : Option String) :
    StoreFilter :=
  let filter_conditions := [⟨"content_type", doc_type⟩]
  if strTruthy content_hash then
    filter_conditions ++ [⟨"content_hash", content_hash.getD ""⟩]
  else
    filter_conditions ++ [⟨"source_file", source_file_name⟩]

/-- The body of `check_document_exists`'s `try` block. -/
def check_document_exists_core (vectorstore : VectorStore) (source_file_name : String)
    (doc_type : String) (content_hash : Option String) :
    Except String (Bool × List ScoredPoint) := do
  let _collection_size ← vectorstore.getCollection
  let search_filter := searchFilter source_file_name doc_type content_hash
  let _sample_points ← vectorstore.scrollPoints none 5
  let count ← vectorstore.countPoints search_filter
  if count > 0 then
    let points ← vectorstore.scrollPoints (some search_filter) count
    return (true, points)
  return (false, [])

/-- `check_document_exists(vectorstore, source_file_name, doc_type,
content_hash)`: any exception inside the `try` is caught and turned into
`(False, [])`. -/
def check_document_exists (vectorstore : VectorStore) (source_file_name : String)
    (doc_type : String := "text") (content_hash : Option String := none) :
    Bool × List ScoredPoint :=
  match check_document_exists_core vectorstore source_file_name doc_type content_hash with
  | .ok r => r
  | .error _ => (false, [])

/-- `process_pdf_and_stream(uploaded_pdf_path)` from
`src/utils/pdf_processor1.py` — the version `ingestion_nodes.py` imports.
Note the `return` right after the text-skip event and the one right after the
image-skip event: each ends the generator. -/
def process_pdf_and_stream (env : RunEnv) (inp : PdfInput)
    (text_vectorstore image_vectorstore : VectorStore) : List StreamAction :=
  if ¬ inp.file_on_disk then
    [.emit ("Error: File does not exist: " ++ inp.path)]
  else
    let source_file_name := basename inp.path
    let company_name := (splitext source_file_name).1
    let content_hash := inp.content_hash
    let processing := StreamAction.emit ("Processing document: " ++ inp.path)
    let textCheck := check_document_exists text_vectorstore source_file_name "text"
      (some content_hash)
    if textCheck.1 then
      [processing,
       .emit (source_file_name ++ " already ingested (text) with "
         ++ Nat.repr textCheck.2.length ++ " chunks. Skipping text ingestion.")]
    else
      let documents := buildPageDocuments inp.pages source_file_name company_name
        content_hash env.now
      let text_actions :=
        if !documents.isEmpty then
          let text_chunks := env.split_documents documents
          let ids := text_chunks.enum.map fun it =>
            generate_doc_id env.uuid5 it.2.metadata it.1 "text"
          [StreamAction.emit ("Extracted " ++ Nat.repr documents.length
             ++ " text segments from PDF."),
           .add_text_documents text_chunks ids,
           .emit ("Added " ++ Nat.repr text_chunks.length ++ " text chunks from "
             ++ source_file_name ++ " into Qdrant text vector store.")]
        else [StreamAction.emit "No text extracted from PDF."]
      let imgCheck := check_document_exists image_vectorstore company_name "image" none
      if imgCheck.1 then
        [processing] ++ text_actions ++
        [.emit (source_file_name
           ++ " already exists in image store. Skipping image ingestion.")]
      else
        let image_actions :=
          if !inp.image_info.isEmpty then
            let metadata_path := "metadata_" ++ source_file_name ++ ".json"
            let metadata_with_timestamp : PyDict :=
              [("metadata", .dict (imageInfoDict inp.image_info)),
               ("ingestion_timestamp", .str env.now),
               ("source_file", .str source_file_name),
               ("company", .str company_name)]
            let image_documents := getRetriever inp.path metadata_with_timestamp
              company_name
            let image_documents := image_documents.map fun doc =>
              { doc with metadata := (dictUpdate doc.metadata
                  [("source_file", .str source_file_name),
                   ("company", .str company_name),
                   ("content_type", .str "image"),
                   ("ingestion_timestamp", .str env.now)]) }
            let img_ids := image_documents.enum.map fun it =>
              generate_doc_id env.uuid5 it.2.metadata it.1 "image"
            [StreamAction.save_metadata_json metadata_path metadata_with_timestamp,
             .emit ("Saved image metadata to " ++ metadata_path),
             .add_image_documents image_documents img_ids,
             .emit ("Added " ++ Nat.repr image_documents.length ++ " image captions from "
               ++ source_file_name ++ " into Qdrant image vector store.")]
          else [StreamAction.emit "No images found in PDF."]
        [processing] ++ text_actions ++
        [.emit ("Extracting images from " ++ source_file_name ++ "...")] ++
        image_actions ++
        [.emit ("Completed ingestion for " ++ source_file_name)]

end Utils

/-- The progress events of a run, in order. -/
def runEvents (acts : List StreamAction) : List String :=
  acts.filterMap fun a =>
    match a with
    | .emit m => some m
    | _ => none

/-- The `(chunks, ids)` batches passed to the text store's `add_documents`. -/
def textWrites (acts : List StreamAction) : List (List Document × List String) :=
  acts.filterMap fun a =>
    match a with
    | .add_text_documents chunks ids => some (chunks, ids)
    | _ => none

/-- The `(docs, ids)` batches passed to the image store's `add_documents`. -/
def imageWrites (acts : List StreamAction) : List (List Document × List String) :=
  acts.filterMap fun a =>
    match a with
    | .add_image_documents docs ids => some (docs, ids)
    | _ => none

/-! ## The enhanced detector (`src/utility/pdf_processor1.py`)

`check_document_exists` there adds an `image_hashes` tier: before the generic
filter it probes the store once per extracted image fingerprint and returns on
the first hit.  The model additionally records the list of existence probes
(`client.count` filters) the call performs, in order — the observable queries
the duplicate detector makes. -/

namespace Utility

/-- One value of the `image_hashes` dict: `{"hash": ...}`. -/
structure ImgHashInfo where
  hash : String

/-- The `individual_filter` built for one image fingerprint inside the
`image_hashes` loop. -/
def individualFilter (h : String) : StoreFilter :=
  [⟨"content_type", "image"⟩, ⟨"image_content_hash", h⟩]

/-- The `for img_id, img_info in image_hashes.items()` loop: count with the
individual filter, on a hit scroll and return the points, otherwise continue;
a raised store error aborts the whole `try` body.  The second component is
the trace of count probes made. -/
def imageHashLoop (vectorstore : VectorStore) :
    List (String × ImgHashInfo) →
    Except String (Option (List ScoredPoint)) × List StoreFilter
  | [] => (.ok none, [])
  | (_img_id, img_info) :: rest =>
    let individual_filter := individualFilter img_info.hash
    match vectorstore.countPoints individual_filter with
    | .error e => (.error e, [individual_filter])
    | .ok count =>
      if count > 0 then
        match vectorstore.scrollPoints (some individual_filter) count with
        | .error e => (.error e, [individual_filter])
        | .ok points => (.ok (some points), [individual_filter])
      else
        let (r, t) := imageHashLoop vectorstore rest
        (r, individual_filter :: t)

/-- `check_document_exists(vectorstore, source_file_name, doc_type,
content_hash, image_hashes)` from `src/utility/pdf_processor1.py`, paired
with its trace of count probes.  The generic `search_filter` construction is
`Utils.searchFilter` — the two files build it with identical code.  Any
exception in the `try` body is caught and becomes `(False, [])`. -/
def check_document_exists_traced (vectorstore : VectorStore) (source_file_name : String)
    (doc_type : String) (content_hash : Option String)
    (image_hashes : Option (List (String × ImgHashInfo))) :
    (Bool × List ScoredPoint) × List StoreFilter :=
  match vectorstore.getCollection with
  | .error _ => ((false, []), [])
  | .ok _collection_size =>
    let tier1 :=
      if doc_type == "image" &&
          (match image_hashes with | some l => !l.isEmpty | none => false) then
        imageHashLoop vectorstore (image_hashes.getD [])
      else (.ok none, [])
    match tier1 with
    | (.error _, t) => ((false, []), t)
    | (.ok (some points), t) => ((true, points), t)
    | (.ok none, t) =>
      let search_filter := Utils.searchFilter source_file_name doc_type content_hash
      match vectorstore.scrollPoints none 5 with
      | .error _ => ((false, []), t)
      | .ok _sample_points =>
        match vectorstore.countPoints search_filter with
        | .error _ => ((false, []), t ++ [search_filter])
        | .ok count =>
          if count > 0 then
            match vectorstore.scrollPoints (some search_filter) count with
            | .error _ => ((false, []), t ++ [search_filter])
            | .ok points => ((true, points), t ++ [search_filter])
          else ((false, []), t ++ [search_filter])

/-- The result `check_document_exists` itself returns. -/
def check_document_exists (vectorstore : VectorStore) (source_file_name : String)
    (doc_type : String := "text") (content_hash : Option String := none)
    (image_hashes : Option (List (String × ImgHashInfo)) := none) :
    Bool × List ScoredPoint :=
  (check_document_exists_traced vectorstore source_file_name doc_type content_hash
    image_hashes).1

/-- The image-stage duplicate detection sequence of
`process_pdf_and_stream` (`src/utility/pdf_processor1.py` lines 360-369),
entered when `image_hashes` is non-empty: first by individual image hashes,
then by PDF content hash, then by source file only; each later call is
guarded by `if not exists`.  Paired with the concatenated probe trace. -/
def image_dedup_sequence (vectorstore : VectorStore)
    (source_file_name content_hash : String)
    (image_hashes : List (String × ImgHashInfo)) :
    (Bool × List ScoredPoint) × List StoreFilter :=
  let c1 := check_document_exists_traced vectorstore source_file_name "image"
    (some content_hash) (some image_hashes)
  if c1.1.1 then c1
  else
    let c2 := check_document_exists_traced vectorstore source_file_name "image"
      (some content_hash) none
    if c2.1.1 then (c2.1, c1.2 ++ c2.2)
    else
      let c3 := check_document_exists_traced vectorstore source_file_name "image"
        none none
      (c3.1, c1.2 ++ c2.2 ++ c3.2)

end Utility

/-- Which dedup tier a probe filter belongs to: per-image fingerprint (1),
whole-document fingerprint (2), or source-name fallback (3). -/
def tierOf (f : StoreFilter) : Nat :=
  if f.any (fun c => c.key = "image_content_hash") then 1
  else if f.any (fun c => c.key = "content_hash") then 2
  else 3

/-- Whether the store holds a point satisfying a filter (what a `count`
probe tests for positivity). -/
def filterMatches (store : VectorStore) (f : StoreFilter) : Bool :=
  store.points.any (fun p => filterHolds f p.metadata)

/-! ## Text segmenter -/

/-- Modelled from the spec: the chunking step
`RecursiveCharacterTextSplitter.from_tiktoken_encoder(chunk_size=1000,
chunk_overlap=100).split_documents` is external langchain code, absent from
this repository; §4.4 specifies it as token-boundary-aware overlapping
windows with target size ≈1000 tokens and overlap ≈100 tokens.  A text of at
most 1000 tokens is a single window; longer texts emit a 1000-token window
and continue 900 tokens further on. -/
def split_text_windows (toks : List String) : List (List String) :=
  if _h : toks.length ≤ 1000 then [toks]
  else toks.take 1000 :: split_text_windows (toks.drop 900)
termination_by toks.length
decreasing_by
  simp only [List.length_drop]
  omega

/-- The text segmenter: `split_documents` applied to the per-page `Document`
list the orchestrator builds (one document per page with non-whitespace
text), splitting each page's text independently; `tokenize` is the external
tiktoken encoder. -/
def segmentUnits (tokenize : String → List String)
    (pages : List String) (source_file_name company_name content_hash now : String) :
    List (List String) :=
  (buildPageDocuments pages source_file_name company_name content_hash now).flatMap
    (fun d => split_text_windows (tokenize d.page_content))

/-! ## Claim theorems -/

/-- Helper: the generic search filter built with an empty content hash equals
the one built with no content hash at all — the name-based fallback. -/
lemma searchFilter_empty_hash (name doc_type : String) :
    Utils.searchFilter name doc_type (some "") = Utils.searchFilter name doc_type none := by
  simp [Utils.searchFilter, strTruthy]

/-- Helper: `check_document_exists` cannot distinguish an empty content hash
from an absent one. -/
lemma check_document_exists_empty_hash (store : VectorStore) (name doc_type : String) :
    Utils.check_document_exists store name doc_type (some "")
      = Utils.check_document_exists store name doc_type none := by
  simp only [Utils.check_document_exists, Utils.check_document_exists_core,
    searchFilter_empty_hash]

/-- C6: for a fixed fingerprint and chunk index, two distinct page numbers
produce distinct text ids: `generate_doc_id` feeds fingerprint, page number
and index into the UUID-v5 name string, and distinct page numbers make the
name strings distinct, so any collision-free `uuid5` yields distinct ids. -/
theorem text_ids_differ_across_pages
    (uuid5 : String → String) (h_inj : Function.Injective uuid5)
    (md1 md2 : PyDict) (F : String) (i p1 p2 : Nat)
    (h1 : dictGet md1 "content_hash" = some (.str F))
    (h2 : dictGet md2 "content_hash" = some (.str F))
    (h3 : dictGet md1 "page_num" = some (.int p1))
    (h4 : dictGet md2 "page_num" = some (.int p2))
    (hne : p1 ≠ p2) :
    generate_doc_id uuid5 md1 i "text" ≠ generate_doc_id uuid5 md2 i "text" := by
  intro heq
  apply hne
  simp only [generate_doc_id, fmtKeyD, fmtKey, h1, h2, h3, h4, pyStrOf, if_pos] at heq
  have hname := h_inj heq
  have hdata := congrArg String.data hname
  simp only [String.data_append, List.append_assoc] at hdata
  have hmid := List.append_cancel_left hdata
  have hmid2 := List.append_cancel_left hmid
  rw [← List.append_assoc, ← List.append_assoc] at hmid2
  have hrepr : (Nat.repr p1).data = (Nat.repr p2).data :=
    List.append_cancel_right (List.append_cancel_right hmid2)
  exact natRepr_injective (by
    have : (⟨(Nat.repr p1).data⟩ : String) = ⟨(Nat.repr p2).data⟩ := by rw [hrepr]
    simpa using this)

/-- Witness for C6 at a concrete input: identical fingerprint `"F"` and index
`0`, pages `1` and `2`, identity as the collision-free uuid5. -/
theorem text_ids_differ_across_pages_witness :
    generate_doc_id (fun s => s) [("content_hash", .str "F"), ("page_num", .int 1)] 0 "text"
      ≠ generate_doc_id (fun s => s) [("content_hash", .str "F"), ("page_num", .int 2)] 0
          "text" :=
  text_ids_differ_across_pages (fun s => s) (fun _ _ h => h)
    [("content_hash", .str "F"), ("page_num", .int 1)]
    [("content_hash", .str "F"), ("page_num", .int 2)]
    "F" 0 1 2 rfl rfl rfl rfl (by decide)

/-- C7: when text extraction fails, `calculate_content_hash` returns the
empty string instead of raising, and `check_document_exists` called with that
empty fingerprint builds the name-based filter
(`metadata.source_file`) and behaves exactly as a name-based lookup, so the
run proceeds with name-based duplicate detection instead of aborting. -/
theorem hasher_failure_falls_back_to_name_lookup
    (sha256_hexdigest : String → String) (err : String)
    (store : VectorStore) (name doc_type : String) :
    calculate_content_hash sha256_hexdigest (.error err) = "" ∧
    Utils.searchFilter name doc_type (some "")
      = [⟨"content_type", doc_type⟩, ⟨"source_file", name⟩] ∧
    Utils.check_document_exists store name doc_type
        (some (calculate_content_hash sha256_hexdigest (.error err)))
      = Utils.check_document_exists store name doc_type none := by
  refine ⟨rfl, by simp [Utils.searchFilter, strTruthy], ?_⟩
  exact check_document_exists_empty_hash store name doc_type

/-- C2: a duplicate-existence check against an unreachable store returns
`(False, [])` — exactly the value returned when no duplicate exists — in both
`src/utils/pdf_processor1.py` and `src/utility/pdf_processor1.py`: the
`except` clause swallows the store error, so a detection failure is
indistinguishable from a true negative, contradicting the claim. -/
theorem detection_failure_indistinguishable_from_negative :
    Utils.check_document_exists
        ⟨[⟨"t0", [("content_type", PyVal.str "text"), ("content_hash", PyVal.str "F")]⟩],
         false⟩
        "doc.pdf" "text" (some "F") = (false, []) ∧
    Utils.check_document_exists ⟨[], true⟩ "doc.pdf" "text" (some "F") = (false, []) ∧
    Utility.check_document_exists
        ⟨[⟨"i0", [("content_type", PyVal.str "image"),
                  ("image_content_hash", PyVal.str "h0")]⟩], false⟩
        "doc.pdf" "image" (some "F") (some [("img0", ⟨"h0"⟩)]) = (false, []) ∧
    Utility.check_document_exists ⟨[], true⟩ "doc.pdf" "image" (some "F")
        (some [("img0", ⟨"h0"⟩)]) = (false, []) :=
  ⟨rfl, rfl, rfl, rfl⟩

/-- C1: in the active orchestrator (`src/utils/pdf_processor1.py`, the
`process_pdf_and_stream` imported by `ingestion_nodes.py`), a document whose
text is already in the text store but whose images are absent from the
(empty) image store produces only the processing event and the text-skip
event: the `return` after the skip ends the run, so no "Added N image
captions" event and no image write ever happen, despite an extracted image
being available. -/
theorem text_skip_suppresses_image_stage :
    runEvents (Utils.process_pdf_and_stream
        ⟨fun s => s, fun d => d, "T0"⟩
        ⟨"docs/AAPL.pdf", true, ["Revenue grew"], "F0", [("img1.png", "ctx")]⟩
        ⟨[⟨"t0", [("content_type", PyVal.str "text"), ("content_hash", PyVal.str "F0")]⟩],
         true⟩
        ⟨[], true⟩) =
      ["Processing document: docs/AAPL.pdf",
       "AAPL.pdf already ingested (text) with 1 chunks. Skipping text ingestion."] ∧
    imageWrites (Utils.process_pdf_and_stream
        ⟨fun s => s, fun d => d, "T0"⟩
        ⟨"docs/AAPL.pdf", true, ["Revenue grew"], "F0", [("img1.png", "ctx")]⟩
        ⟨[⟨"t0", [("content_type", PyVal.str "text"), ("content_hash", PyVal.str "F0")]⟩],
         true⟩
        ⟨[], true⟩) = [] :=
  ⟨rfl, rfl⟩

/-- Helper: with a reachable store containing a text point carrying content
hash `F ≠ ""`, the fingerprint-based existence check reports a duplicate. -/
lemma check_document_exists_finds (store : VectorStore) (name F : String)
    (pt : ScoredPoint)
    (hreach : store.reachable = true) (hmem : pt ∈ store.points)
    (hct : dictGet pt.metadata "content_type" = some (.str "text"))
    (hch : dictGet pt.metadata "content_hash" = some (.str F))
    (hF : F ≠ "") :
    ∃ pts, Utils.check_document_exists store name "text" (some F) = (true, pts) := by
  have hfilter : filterHolds (Utils.searchFilter name "text" (some F)) pt.metadata = true := by
    simp [Utils.searchFilter, strTruthy, hF, filterHolds, condHolds, hct, hch]
  have hmemf : pt ∈ store.points.filter
      (fun p => filterHolds (Utils.searchFilter name "text" (some F)) p.metadata) :=
    List.mem_filter.2 ⟨hmem, hfilter⟩
  have hpos : 0 < (store.points.filter
      (fun p => filterHolds (Utils.searchFilter name "text" (some F)) p.metadata)).length :=
    List.length_pos.2 (List.ne_nil_of_mem hmemf)
  rcases store with ⟨points, reach⟩
  simp only at hreach
  subst hreach
  simp only at hmem hmemf hpos
  refine ⟨(points.filter
      (fun p => filterHolds (Utils.searchFilter name "text" (some F)) p.metadata)).take
      (points.filter
      (fun p => filterHolds (Utils.searchFilter name "text" (some F)) p.metadata)).length,
    ?_⟩
  simp only [Utils.check_document_exists, Utils.check_document_exists_core,
    VectorStore.getCollection, VectorStore.scrollPoints, VectorStore.countPoints,
    if_true, Bind.bind, Except.bind, pure, Except.pure, gt_iff_lt, hpos, if_pos]
  simp

/-- C3: when the text store already holds a text unit whose
`metadata.content_hash` equals the fingerprint `F` of the current document,
the orchestrator emits only the processing event and the
"already ingested (text)" skip event, and performs no text store write (and,
because of the early `return`, no other action at all). -/
theorem dedup_short_circuit_on_fingerprint
    (env : RunEnv) (inp : PdfInput) (tstore istore : VectorStore)
    (F : String) (pt : ScoredPoint)
    (hfile : inp.file_on_disk = true)
    (hreach : tstore.reachable = true)
    (hmem : pt ∈ tstore.points)
    (hct : dictGet pt.metadata "content_type" = some (.str "text"))
    (hch : dictGet pt.metadata "content_hash" = some (.str F))
    (hhash : inp.content_hash = F)
    (hF : F ≠ "") :
    ∃ n, runEvents (Utils.process_pdf_and_stream env inp tstore istore) =
        ["Processing document: " ++ inp.path,
         basename inp.path ++ " already ingested (text) with " ++ Nat.repr n
           ++ " chunks. Skipping text ingestion."] ∧
      textWrites (Utils.process_pdf_and_stream env inp tstore istore) = [] ∧
      imageWrites (Utils.process_pdf_and_stream env inp tstore istore) = [] := by
  subst hhash
  obtain ⟨pts, hcheck⟩ := check_document_exists_finds tstore (basename inp.path)
    inp.content_hash pt hreach hmem hct hch hF
  refine ⟨pts.length, ?_, ?_, ?_⟩ <;>
  · simp only [Utils.process_pdf_and_stream, hfile, hcheck]
    simp [runEvents, textWrites, imageWrites]

/-- Witness for C3: a store holding one text point with fingerprint `"F0"`,
and an input whose content hashes to `"F0"`. -/
theorem dedup_short_circuit_on_fingerprint_witness :
    ∃ n, runEvents (Utils.process_pdf_and_stream
        ⟨fun s => s, fun d => d, "T0"⟩
        ⟨"docs/MSFT.pdf", true, ["page one"], "F0", []⟩
        ⟨[⟨"t0", [("content_type", PyVal.str "text"), ("content_hash", PyVal.str "F0")]⟩],
         true⟩
        ⟨[], true⟩) =
        ["Processing document: docs/MSFT.pdf",
         basename "docs/MSFT.pdf" ++ " already ingested (text) with " ++ Nat.repr n
           ++ " chunks. Skipping text ingestion."] ∧
      textWrites (Utils.process_pdf_and_stream
        ⟨fun s => s, fun d => d, "T0"⟩
        ⟨"docs/MSFT.pdf", true, ["page one"], "F0", []⟩
        ⟨[⟨"t0", [("content_type", PyVal.str "text"), ("content_hash", PyVal.str "F0")]⟩],
         true⟩
        ⟨[], true⟩) = [] ∧
      imageWrites (Utils.process_pdf_and_stream
        ⟨fun s => s, fun d => d, "T0"⟩
        ⟨"docs/MSFT.pdf", true, ["page one"], "F0", []⟩
        ⟨[⟨"t0", [("content_type", PyVal.str "text"), ("content_hash", PyVal.str "F0")]⟩],
         true⟩
        ⟨[], true⟩) = [] :=
  dedup_short_circuit_on_fingerprint
    ⟨fun s => s, fun d => d, "T0"⟩
    ⟨"docs/MSFT.pdf", true, ["page one"], "F0", []⟩
    ⟨[⟨"t0", [("content_type", PyVal.str "text"), ("content_hash", PyVal.str "F0")]⟩],
     true⟩
    ⟨[], true⟩
    "F0" ⟨"t0", [("content_type", PyVal.str "text"), ("content_hash", PyVal.str "F0")]⟩
    rfl rfl (by simp) rfl rfl rfl (by decide)

/-- Helper: reading the key just written returns the written value. -/
lemma dictGet_dictSet_self (d : PyDict) (k : String) (v : PyVal) :
    dictGet (dictSet d k v) k = some v := by
  induction d with
  | nil => simp [dictSet, dictGet, List.find?]
  | cons hd tl ih =>
    by_cases hk : hd.1 = k
    · simp [dictSet, dictGet, List.find?, hk]
    · simp [dictSet, dictGet, List.find?, hk] at ih ⊢
      exact ih

/-- Helper: writing one key leaves every other key's value unchanged. -/
lemma dictGet_dictSet_ne (d : PyDict) (k1 k : String) (v : PyVal) (h : k1 ≠ k) :
    dictGet (dictSet d k1 v) k = dictGet d k := by
  induction d with
  | nil => simp [dictSet, dictGet, List.find?, h]
  | cons hd tl ih =>
    by_cases hk1 : hd.1 = k1
    · by_cases hk : hd.1 = k
      · exact absurd (hk1 ▸ hk) h
      · simp [dictSet, dictGet, List.find?, hk1, hk, h]
    · by_cases hk : hd.1 = k
      · simp [dictSet, dictGet, List.find?, hk1, hk, Ne.symm h]
      · simp [dictSet, dictGet, List.find?, hk1, hk] at ih ⊢
        exact ih

/-- Helper: when no stored point satisfies the search filter, the existence
check reports no duplicate — whether the store is reachable (count is zero)
or not (the exception is swallowed). -/
lemma check_document_exists_no_match (store : VectorStore) (name dt : String)
    (ch : Option String)
    (h : ∀ p ∈ store.points, filterHolds (Utils.searchFilter name dt ch) p.metadata = false) :
    Utils.check_document_exists store name dt ch = (false, []) := by
  rcases store with ⟨points, reach⟩
  cases reach with
  | false => rfl
  | true =>
    simp only at h
    have hfil : points.filter
        (fun p => filterHolds (Utils.searchFilter name dt ch) p.metadata) = [] := by
      rw [List.filter_eq_nil_iff]
      intro p hp
      simp [h p hp]
    simp only [Utils.check_document_exists, Utils.check_document_exists_core,
      VectorStore.getCollection, VectorStore.scrollPoints, VectorStore.countPoints,
      if_true, Bind.bind, Except.bind, hfil]
    simp [pure, Except.pure]

/-- Helper: a basename with a non-empty extension differs from its stem. -/
lemma splitext_stem_ne (name : String) (h : (splitext name).2 ≠ "") :
    (splitext name).1 ≠ name := by
  unfold splitext at h ⊢
  cases hidx : lastDotIdx name.data with
  | none =>
    rw [hidx] at h
    dsimp only at h
    exact absurd rfl h
  | some i =>
    rw [hidx] at h
    dsimp only at h ⊢
    by_cases hall : ((name.data.take i).all fun c => decide (c = '.')) = true
    · rw [if_pos hall] at h; exact absurd rfl h
    · rw [if_neg hall] at h ⊢
      intro heq
      have hdata : name.data.take i = name.data := congrArg String.data heq
      have hlen := congrArg List.length hdata
      rw [List.length_take] at hlen
      have hge : name.data.length ≤ i := by
        rcases Nat.le_total i name.data.length with hle | hle
        · rw [Nat.min_eq_left hle] at hlen; omega
        · exact hle
      have hdrop : name.data.drop i = [] := List.drop_eq_nil_of_le hge
      apply h
      show (⟨name.data.drop i⟩ : String) = ""
      rw [hdrop]

/-- Helper: the post-`getRetriever` metadata update leaves `caption` alone. -/
lemma dictGet_updated_caption (d0 : PyDict) (a b c e : PyVal) :
    dictGet (dictUpdate d0 [("source_file", a), ("company", b), ("content_type", c),
      ("ingestion_timestamp", e)]) "caption" = dictGet d0 "caption" := by
  simp only [dictUpdate, List.foldl_cons, List.foldl_nil]
  rw [dictGet_dictSet_ne _ _ _ _ (by decide), dictGet_dictSet_ne _ _ _ _ (by decide),
    dictGet_dictSet_ne _ _ _ _ (by decide), dictGet_dictSet_ne _ _ _ _ (by decide)]

/-- Helper: the post-`getRetriever` metadata update pins `source_file`. -/
lemma dictGet_updated_source_file (d0 : PyDict) (a b c e : PyVal) :
    dictGet (dictUpdate d0 [("source_file", a), ("company", b), ("content_type", c),
      ("ingestion_timestamp", e)]) "source_file" = some a := by
  simp only [dictUpdate, List.foldl_cons, List.foldl_nil]
  rw [dictGet_dictSet_ne _ _ _ _ (by decide), dictGet_dictSet_ne _ _ _ _ (by decide),
    dictGet_dictSet_ne _ _ _ _ (by decide), dictGet_dictSet_self]

/-- Helper: `get_image_data` stores the caption it was given under `caption`. -/
lemma dictGet_get_image_data_caption (pdf_path image_path : String) (caption : PyVal)
    (company : String) :
    dictGet (get_image_data pdf_path image_path caption company) "caption"
      = some caption := by
  simp [get_image_data, dictGet, List.find?]

/-- Helper: when the text check finds nothing, the image check finds nothing
and at least one image was extracted, the active orchestrator performs
exactly one image write, whose documents come from `getRetriever` applied to
the four-entry metadata JSON and the per-document metadata update. -/
lemma imageWrites_of_run (env : RunEnv) (inp : PdfInput) (tstore istore : VectorStore)
    (hfile : inp.file_on_disk = true)
    (htext : (Utils.check_document_exists tstore (basename inp.path) "text"
      (some inp.content_hash)).1 = false)
    (himg : (Utils.check_document_exists istore ((splitext (basename inp.path)).1)
      "image" none).1 = false)
    (hinfo : inp.image_info.isEmpty = false) :
    (imageWrites (Utils.process_pdf_and_stream env inp tstore istore)).map Prod.fst =
      [(getRetriever inp.path
          [("metadata", .dict (imageInfoDict inp.image_info)),
           ("ingestion_timestamp", .str env.now),
           ("source_file", .str (basename inp.path)),
           ("company", .str ((splitext (basename inp.path)).1))]
          ((splitext (basename inp.path)).1)).map (fun doc =>
            { doc with metadata := (dictUpdate doc.metadata
                [("source_file", .str (basename inp.path)),
                 ("company", .str ((splitext (basename inp.path)).1)),
                 ("content_type", .str "image"),
                 ("ingestion_timestamp", .str env.now)]) })] := by
  by_cases hdoc : (buildPageDocuments inp.pages (basename inp.path)
      ((splitext (basename inp.path)).1) inp.content_hash env.now).isEmpty = true <;>
  · simp only [Utils.process_pdf_and_stream, hfile, htext, himg, hinfo, hdoc]
    simp [imageWrites, List.filterMap_append, hdoc]

/-- C9: in the active pipeline, (i) every image unit written carries the full
file name (with extension) as `metadata.source_file`; (ii) the image-stage
existence check filters `metadata.source_file` by the company tag, so against
a store holding only units written with the full name it always returns
`(False, [])`; (iii) for any file name with a non-empty extension the company
tag differs from the full name — so units previously written by this pipeline
are never found by this check. -/
theorem image_check_never_finds_own_units (env : RunEnv) (inp : PdfInput)
    (tstore istore : VectorStore)
    (hfile : inp.file_on_disk = true)
    (htext : (Utils.check_document_exists tstore (basename inp.path) "text"
      (some inp.content_hash)).1 = false)
    (himg : (Utils.check_document_exists istore ((splitext (basename inp.path)).1)
      "image" none).1 = false)
    (hinfo : inp.image_info.isEmpty = false) :
    (∀ w ∈ imageWrites (Utils.process_pdf_and_stream env inp tstore istore),
      ∀ d ∈ w.1, dictGet d.metadata "source_file"
        = some (.str (basename inp.path))) ∧
    (∀ (store : VectorStore) (full company : String), company ≠ full →
      (∀ p ∈ store.points, dictGet p.metadata "source_file" = some (.str full)) →
      Utils.check_document_exists store company "image" none = (false, [])) ∧
    (∀ nm : String, (splitext nm).2 ≠ "" → (splitext nm).1 ≠ nm) := by
  refine ⟨?_, ?_, splitext_stem_ne⟩
  · intro w hw d hd
    have hw1 : w.1 ∈ (imageWrites
        (Utils.process_pdf_and_stream env inp tstore istore)).map Prod.fst :=
      List.mem_map_of_mem _ hw
    rw [imageWrites_of_run env inp tstore istore hfile htext himg hinfo] at hw1
    simp only [List.mem_singleton] at hw1
    rw [hw1] at hd
    simp only [List.mem_map] at hd
    obtain ⟨d0, _hd0, rfl⟩ := hd
    exact dictGet_updated_source_file d0.metadata _ _ _ _
  · intro store full company hne hpts
    apply check_document_exists_no_match
    intro p hp
    simp [filterHolds, Utils.searchFilter, strTruthy, condHolds, hpts p hp, Ne.symm hne]

/-- Witness for C9: a one-page PDF named `AAPL.pdf` with one extracted image,
empty stores, and the written-units/check-miss facts at `full = "AAPL.pdf"`,
`company = "AAPL"`. -/
theorem image_check_never_finds_own_units_witness :
    (∀ w ∈ imageWrites (Utils.process_pdf_and_stream
        ⟨fun s => s, fun d => d, "T0"⟩
        ⟨"docs/AAPL.pdf", true, ["text page"], "F0", [("img1.png", "ctx")]⟩
        ⟨[], true⟩ ⟨[], true⟩),
      ∀ d ∈ w.1, dictGet d.metadata "source_file"
        = some (.str (basename "docs/AAPL.pdf"))) ∧
    (∀ (store : VectorStore) (full company : String), company ≠ full →
      (∀ p ∈ store.points, dictGet p.metadata "source_file" = some (.str full)) →
      Utils.check_document_exists store company "image" none = (false, [])) ∧
    (∀ nm : String, (splitext nm).2 ≠ "" → (splitext nm).1 ≠ nm) :=
  image_check_never_finds_own_units
    ⟨fun s => s, fun d => d, "T0"⟩
    ⟨"docs/AAPL.pdf", true, ["text page"], "F0", [("img1.png", "ctx")]⟩
    ⟨[], true⟩ ⟨[], true⟩ rfl rfl rfl rfl

/-- C10: in the active pipeline, whenever at least one image is extracted and
neither dedup check fires, exactly one image write happens and it contains
exactly four documents — one per top-level key of the saved metadata JSON
(`metadata`, `ingestion_timestamp`, `source_file`, `company`) — regardless of
how many images were extracted; their stored captions are the four top-level
values, none of which is a per-image describer caption. -/
theorem image_write_is_four_json_entries (env : RunEnv) (inp : PdfInput)
    (tstore istore : VectorStore)
    (hfile : inp.file_on_disk = true)
    (htext : (Utils.check_document_exists tstore (basename inp.path) "text"
      (some inp.content_hash)).1 = false)
    (himg : (Utils.check_document_exists istore ((splitext (basename inp.path)).1)
      "image" none).1 = false)
    (hinfo : inp.image_info.isEmpty = false) :
    (imageWrites (Utils.process_pdf_and_stream env inp tstore istore)).map
        (fun w => w.1.length) = [4] ∧
    (imageWrites (Utils.process_pdf_and_stream env inp tstore istore)).map
        (fun w => w.1.map (fun d => dictGet d.metadata "caption")) =
      [[some (.dict (imageInfoDict inp.image_info)), some (.str env.now),
        some (.str (basename inp.path)),
        some (.str ((splitext (basename inp.path)).1))]] := by
  have hrun := imageWrites_of_run env inp tstore istore hfile htext himg hinfo
  constructor
  · have : (imageWrites (Utils.process_pdf_and_stream env inp tstore istore)).map
        (fun w => w.1.length) =
        ((imageWrites (Utils.process_pdf_and_stream env inp tstore istore)).map
          Prod.fst).map List.length := by
      simp [List.map_map, Function.comp]
    rw [this, hrun]
    simp [getRetriever]
  · have : (imageWrites (Utils.process_pdf_and_stream env inp tstore istore)).map
        (fun w => w.1.map (fun d => dictGet d.metadata "caption")) =
        ((imageWrites (Utils.process_pdf_and_stream env inp tstore istore)).map
          Prod.fst).map (fun docs => docs.map (fun d => dictGet d.metadata "caption")) := by
      simp [List.map_map, Function.comp]
    rw [this, hrun]
    simp [getRetriever, dictGet_updated_caption, dictGet_get_image_data_caption]

/-- Witness for C10: same concrete run as the C9 witness; the single image
write holds four documents even though only one image was extracted. -/
theorem image_write_is_four_json_entries_witness :
    (imageWrites (Utils.process_pdf_and_stream
        ⟨fun s => s, fun d => d, "T0"⟩
        ⟨"docs/AAPL.pdf", true, ["text page"], "F0", [("img1.png", "ctx")]⟩
        ⟨[], true⟩ ⟨[], true⟩)).map (fun w => w.1.length) = [4] ∧
    (imageWrites (Utils.process_pdf_and_stream
        ⟨fun s => s, fun d => d, "T0"⟩
        ⟨"docs/AAPL.pdf", true, ["text page"], "F0", [("img1.png", "ctx")]⟩
        ⟨[], true⟩ ⟨[], true⟩)).map
        (fun w => w.1.map (fun d => dictGet d.metadata "caption")) =
      [[some (.dict (imageInfoDict [("img1.png", "ctx")])), some (.str "T0"),
        some (.str (basename "docs/AAPL.pdf")),
        some (.str ((splitext (basename "docs/AAPL.pdf")).1))]] :=
  image_write_is_four_json_entries
    ⟨fun s => s, fun d => d, "T0"⟩
    ⟨"docs/AAPL.pdf", true, ["text page"], "F0", [("img1.png", "ctx")]⟩
    ⟨[], true⟩ ⟨[], true⟩ rfl rfl rfl rfl

/-- Helper: the describer loop never adds an entry for an image whose every
analysis outcome is the `None` sentinel or an `INVALID_IMAGE` result. -/
lemma get_image_description_loop_excludes (env : DescriberEnv) (p : String) :
    ∀ (cs acc : List (String × String)),
      (∀ c, (p, c) ∈ cs →
        analyze_image_with_context env p c = none ∨
        ∃ r, analyze_image_with_context env p c = some r ∧
          pyIn "INVALID_IMAGE" r = true) →
      (∀ e ∈ acc, e.1 ≠ p) →
      ∀ e ∈ get_image_description_loop env acc cs, e.1 ≠ p := by
  intro cs
  induction cs with
  | nil =>
    intro acc _ hacc e he
    exact hacc e (by simpa [get_image_description_loop] using he)
  | cons hd tl ih =>
    intro acc hcs hacc e he
    obtain ⟨q, c⟩ := hd
    simp only [get_image_description_loop] at he
    cases han : analyze_image_with_context env q c with
    | none =>
      rw [han] at he
      exact ih acc (fun c2 hc2 => hcs c2 (List.mem_cons_of_mem _ hc2)) hacc e he
    | some result =>
      rw [han] at he
      dsimp only at he
      by_cases hinv : pyIn "INVALID_IMAGE" result = true
      · rw [if_pos hinv] at he
        exact ih acc (fun c2 hc2 => hcs c2 (List.mem_cons_of_mem _ hc2)) hacc e he
      · rw [if_neg hinv] at he
        refine ih _ (fun c2 hc2 => hcs c2 (List.mem_cons_of_mem _ hc2)) ?_ e he
        intro e2 he2
        rcases List.mem_append.1 he2 with h2 | h2
        · exact hacc e2 h2
        · simp only [List.mem_singleton] at h2
          subst h2
          intro hqp
          simp only at hqp
          rcases hcs c (by rw [← hqp]; exact List.mem_cons_self _ _) with hnone | ⟨r, hr, hrinv⟩
          · rw [hqp] at han
            rw [han] at hnone
            exact Option.noConfusion hnone
          · rw [hqp] at han
            rw [han] at hr
            have : result = r := by injection hr
            rw [this] at hinv
            exact hinv hrinv

/-- C5: an image for which the describer yields the non-informative sentinel
(`analyze_image_with_context` returns `None`, or an `INVALID_IMAGE`-marked
result) gets no entry in the `image_analyses` mapping — the only source of
ImageUnits and of the analysis side-car JSON content — so no ImageUnit is
produced for it and it does not appear in the side-car file. -/
theorem non_informative_images_excluded (env : DescriberEnv)
    (contexts : List (String × String)) (image_path : String)
    (h : ∀ c, (image_path, c) ∈ contexts →
      analyze_image_with_context env image_path c = none ∨
      ∃ r, analyze_image_with_context env image_path c = some r ∧
        pyIn "INVALID_IMAGE" r = true) :
    ∀ e ∈ get_image_description env contexts, e.1 ≠ image_path :=
  get_image_description_loop_excludes env image_path contexts [] h (by simp)

/-- Witness for C5: a describer that classifies `logo.png` as
`INVALID_IMAGE`; the resulting analyses mapping contains no entry for it. -/
theorem non_informative_images_excluded_witness :
    ("logo.png", "caption") ∉ get_image_description
        ⟨fun _ => true, fun _ => some "b64", fun _ _ => .ok "INVALID_IMAGE"⟩
        [("logo.png", "ctx")] :=
  fun hmem =>
    non_informative_images_excluded
      ⟨fun _ => true, fun _ => some "b64", fun _ _ => .ok "INVALID_IMAGE"⟩
      [("logo.png", "ctx")] "logo.png"
      (fun c hc => Or.inl (by
        simp only [List.mem_singleton, Prod.mk.injEq] at hc
        rw [hc.2]
        rfl))
      ("logo.png", "caption") hmem rfl

/-- Helper: the number of chunks the segmenter produces does not depend on
the page-numbering start index (page numbers enter only the metadata, not the
chunking of each page's text). -/
lemma segment_length_start_irrelevant (tokenize : String → List String)
    (sfn cn chash now : String) :
    ∀ (pages : List String) (s1 s2 : Nat),
      (((List.enumFrom s1 pages).filterMap (fun pt =>
        if pyStrip pt.2 ≠ "" then
          some (Document.mk pt.2
            [("source_file", .str sfn), ("page_num", .int (pt.1 + 1)),
             ("company", .str cn), ("content_type", .str "text"),
             ("content_hash", .str chash), ("ingestion_timestamp", .str now)])
        else none)).flatMap
          (fun d => split_text_windows (tokenize d.page_content))).length =
      (((List.enumFrom s2 pages).filterMap (fun pt =>
        if pyStrip pt.2 ≠ "" then
          some (Document.mk pt.2
            [("source_file", .str sfn), ("page_num", .int (pt.1 + 1)),
             ("company", .str cn), ("content_type", .str "text"),
             ("content_hash", .str chash), ("ingestion_timestamp", .str now)])
        else none)).flatMap
          (fun d => split_text_windows (tokenize d.page_content))).length := by
  intro pages
  induction pages with
  | nil => intro s1 s2; rfl
  | cons pg tl ih =>
    intro s1 s2
    have ih2 := ih (s1 + 1) (s2 + 1)
    simp at ih2
    by_cases hk : pyStrip pg ≠ "" <;>
      simp [List.enumFrom, List.filterMap_cons, hk, ih2]

/-- Helper: dropping a whitespace-only page anywhere leaves the chunk count
unchanged, for any page-numbering start. -/
lemma segment_drop_ws_aux (tokenize : String → List String)
    (sfn cn chash now : String) (w : String) (hw : pyStrip w = "") :
    ∀ (xs ys : List String) (s : Nat),
      (((List.enumFrom s (xs ++ w :: ys)).filterMap (fun pt =>
        if pyStrip pt.2 ≠ "" then
          some (Document.mk pt.2
            [("source_file", .str sfn), ("page_num", .int (pt.1 + 1)),
             ("company", .str cn), ("content_type", .str "text"),
             ("content_hash", .str chash), ("ingestion_timestamp", .str now)])
        else none)).flatMap
          (fun d => split_text_windows (tokenize d.page_content))).length =
      (((List.enumFrom s (xs ++ ys)).filterMap (fun pt =>
        if pyStrip pt.2 ≠ "" then
          some (Document.mk pt.2
            [("source_file", .str sfn), ("page_num", .int (pt.1 + 1)),
             ("company", .str cn), ("content_type", .str "text"),
             ("content_hash", .str chash), ("ingestion_timestamp", .str now)])
        else none)).flatMap
          (fun d => split_text_windows (tokenize d.page_content))).length := by
  intro xs
  induction xs with
  | nil =>
    intro ys s
    simp only [List.nil_append, List.enumFrom, List.filterMap_cons, hw, ne_eq,
      not_true_eq_false, if_false]
    exact segment_length_start_irrelevant tokenize sfn cn chash now ys (s + 1) s
  | cons x xt ih =>
    intro ys s
    have ih2 := ih ys (s + 1)
    simp at ih2
    by_cases hk : pyStrip x ≠ "" <;>
      simp [List.enumFrom, List.filterMap_cons, hk, ih2]

/-- C8: a page whose stripped text is empty contributes zero chunks — it is
dropped before the splitter runs — and a single-page document that tokenizes
to exactly one token yields exactly one chunk, containing that token. -/
theorem segmenter_boundary (tokenize : String → List String)
    (sfn cn chash now : String) (xs ys : List String) (w p tok : String)
    (hw : pyStrip w = "")
    (hp : pyStrip p ≠ "") (htok : tokenize p = [tok]) :
    (segmentUnits tokenize (xs ++ w :: ys) sfn cn chash now).length
      = (segmentUnits tokenize (xs ++ ys) sfn cn chash now).length ∧
    segmentUnits tokenize [p] sfn cn chash now = [[tok]] := by
  constructor
  · exact segment_drop_ws_aux tokenize sfn cn chash now w hw xs ys 0
  · simp only [segmentUnits, buildPageDocuments, List.enum, List.enumFrom,
      List.filterMap_cons, List.filterMap_nil]
    rw [if_pos hp]
    dsimp only
    simp only [List.flatMap_cons, List.flatMap_nil, List.append_nil]
    rw [htok, split_text_windows]
    simp

/-- Witness for C8: pages `["hello", "  ", "world"]` versus
`["hello", "world"]` give the same chunk count, and the one-token page `"hi"`
yields exactly one chunk. -/
theorem segmenter_boundary_witness :
    (segmentUnits (fun s => [s]) (["hello"] ++ "  " :: ["world"]) "a.pdf" "a" "F" "T").length
      = (segmentUnits (fun s => [s]) (["hello"] ++ ["world"]) "a.pdf" "a" "F" "T").length ∧
    segmentUnits (fun s => [s]) ["hi"] "a.pdf" "a" "F" "T" = [["hi"]] :=
  segmenter_boundary (fun s => [s]) "a.pdf" "a" "F" "T" ["hello"] ["world"] "  " "hi" "hi"
    (by decide) (by decide) rfl

/-- Helper: a count probe on a reachable store with no matching point
returns zero. -/
lemma countPoints_no_match (store : VectorStore) (hreach : store.reachable = true)
    (f : StoreFilter) (h : filterMatches store f = false) :
    store.countPoints f = .ok 0 := by
  rcases store with ⟨points, reach⟩
  simp only at hreach
  subst hreach
  simp only [filterMatches] at h
  have hfil : points.filter (fun p => filterHolds f p.metadata) = [] := by
    rw [List.filter_eq_nil_iff]
    intro p hp
    simp only [List.any_eq_false] at h
    simp [h p hp]
  simp [VectorStore.countPoints, hfil]

/-- Helper: a count probe on a reachable store with a matching point returns
a positive count. -/
lemma countPoints_match (store : VectorStore) (hreach : store.reachable = true)
    (f : StoreFilter) (h : filterMatches store f = true) :
    ∃ k, store.countPoints f = .ok k ∧ 0 < k := by
  rcases store with ⟨points, reach⟩
  simp only at hreach
  subst hreach
  simp only [filterMatches] at h
  refine ⟨(points.filter (fun p => filterHolds f p.metadata)).length,
    by simp [VectorStore.countPoints], ?_⟩
  simp only [List.any_eq_true] at h
  obtain ⟨p, hp, hpf⟩ := h
  exact List.length_pos.2 (List.ne_nil_of_mem (List.mem_filter.2 ⟨hp, hpf⟩))

/-- Helper: every per-image probe filter is a tier-1 filter. -/
lemma tierOf_individual (h : String) : tierOf (Utility.individualFilter h) = 1 := by
  simp [tierOf, Utility.individualFilter]

/-- Helper: with a non-empty content hash the generic filter is the
whole-document-fingerprint (tier 2) filter. -/
lemma tierOf_searchFilter_hash (name dt ch : String) (hch : ch ≠ "") :
    tierOf (Utils.searchFilter name dt (some ch)) = 2 := by
  simp [tierOf, Utils.searchFilter, strTruthy, hch]

/-- Helper: without a content hash the generic filter is the source-name
(tier 3) filter. -/
lemma tierOf_searchFilter_name (name dt : String) :
    tierOf (Utils.searchFilter name dt none) = 3 := by
  simp [tierOf, Utils.searchFilter, strTruthy]

/-- Helper: when no image fingerprint matches, the hash loop probes every
fingerprint in order and reports no hit. -/
lemma imageHashLoop_all_miss (store : VectorStore) (hreach : store.reachable = true) :
    ∀ hashes : List (String × Utility.ImgHashInfo),
      (∀ ih ∈ hashes,
        filterMatches store (Utility.individualFilter ih.2.hash) = false) →
      Utility.imageHashLoop store hashes =
        (.ok none, hashes.map (fun ih => Utility.individualFilter ih.2.hash)) := by
  intro hashes
  induction hashes with
  | nil => intro _; rfl
  | cons hd tl ih =>
    intro hmiss
    obtain ⟨hid, hinfo⟩ := hd
    have hcount := countPoints_no_match store hreach
      (Utility.individualFilter hinfo.hash)
      (hmiss (hid, hinfo) (List.mem_cons_self _ _))
    simp only [Utility.imageHashLoop, hcount]
    rw [ih (fun x hx => hmiss x (List.mem_cons_of_mem _ hx))]
    simp

/-- Helper: when some image fingerprint matches, the hash loop stops with a
hit, having probed only per-image (tier-1) filters. -/
lemma imageHashLoop_hit (store : VectorStore) (hreach : store.reachable = true) :
    ∀ hashes : List (String × Utility.ImgHashInfo),
      (∃ ih ∈ hashes,
        filterMatches store (Utility.individualFilter ih.2.hash) = true) →
      ∃ pts t, Utility.imageHashLoop store hashes = (.ok (some pts), t) ∧
        ∀ f ∈ t, ∃ ih ∈ hashes, f = Utility.individualFilter ih.2.hash := by
  intro hashes
  induction hashes with
  | nil => rintro ⟨ih, hmem, _⟩; exact absurd hmem (List.not_mem_nil _)
  | cons hd tl ih =>
    rintro ⟨w, hmem, hwmatch⟩
    obtain ⟨hid, hinfo⟩ := hd
    by_cases hhd : filterMatches store (Utility.individualFilter hinfo.hash) = true
    · obtain ⟨k, hk, hkpos⟩ := countPoints_match store hreach
        (Utility.individualFilter hinfo.hash) hhd
      rcases store with ⟨points, reach⟩
      simp only at hreach
      subst hreach
      refine ⟨(points.filter
          (fun p => filterHolds (Utility.individualFilter hinfo.hash) p.metadata)).take k,
        [Utility.individualFilter hinfo.hash], ?_, ?_⟩
      · simp only [Utility.imageHashLoop, hk, hkpos, if_pos, gt_iff_lt]
        simp [VectorStore.scrollPoints]
      · intro f hf
        simp only [List.mem_singleton] at hf
        exact ⟨(hid, hinfo), List.mem_cons_self _ _, hf⟩
    · have hw2 : w ∈ tl := by
        rcases List.mem_cons.1 hmem with heq | htl
        · exfalso
          apply hhd
          rw [heq] at hwmatch
          exact hwmatch
        · exact htl
      obtain ⟨pts, t, hloop, ht⟩ := ih ⟨w, hw2, hwmatch⟩
      have hcount := countPoints_no_match store hreach
        (Utility.individualFilter hinfo.hash) (by simpa using hhd)
      refine ⟨pts, Utility.individualFilter hinfo.hash :: t, ?_, ?_⟩
      · simp only [Utility.imageHashLoop, hcount, hloop]
        simp
      · intro f hf
        rcases List.mem_cons.1 hf with heq | htf
        · exact ⟨(hid, hinfo), List.mem_cons_self _ _, heq⟩
        · obtain ⟨x, hx, hfx⟩ := ht f htf
          exact ⟨x, List.mem_cons_of_mem _ hx, hfx⟩

/-- Helper: if some per-image fingerprint matches, the enhanced check returns
that hit having probed only tier-1 filters. -/
lemma traced_tier1_hit (store : VectorStore) (hreach : store.reachable = true)
    (name ch : String) (hashes : List (String × Utility.ImgHashInfo))
    (hhit : ∃ ih ∈ hashes,
      filterMatches store (Utility.individualFilter ih.2.hash) = true) :
    ∃ pts t, Utility.check_document_exists_traced store name "image" (some ch)
        (some hashes) = ((true, pts), t) ∧ ∀ f ∈ t, tierOf f = 1 := by
  have hne : hashes.isEmpty = false := by
    obtain ⟨w, hw, _⟩ := hhit
    cases hashes with
    | nil => exact absurd hw (List.not_mem_nil _)
    | cons a l => rfl
  obtain ⟨pts, t, hloop, ht⟩ := imageHashLoop_hit store hreach hashes hhit
  have hcoll : store.getCollection = .ok store.points.length := by
    simp [VectorStore.getCollection, hreach]
  refine ⟨pts, t, ?_, ?_⟩
  · simp only [Utility.check_document_exists_traced, hcoll, hne, Option.getD_some,
      Bool.not_false, Bool.and_true, beq_self_eq_true, if_pos, hloop]
  · intro f hf
    obtain ⟨x, _, hfx⟩ := ht f hf
    rw [hfx]
    exact tierOf_individual x.2.hash

/-- Helper: if every per-image fingerprint misses, the enhanced check probes
all of them in order and then the generic filter, whose match decides the
result. -/
lemma traced_after_misses (store : VectorStore) (hreach : store.reachable = true)
    (name ch : String) (hashes : List (String × Utility.ImgHashInfo))
    (hmiss : ∀ ih ∈ hashes,
      filterMatches store (Utility.individualFilter ih.2.hash) = false) :
    ∃ res, Utility.check_document_exists_traced store name "image" (some ch)
        (some hashes)
        = (res, hashes.map (fun ih => Utility.individualFilter ih.2.hash)
            ++ [Utils.searchFilter name "image" (some ch)]) ∧
      res.1 = filterMatches store (Utils.searchFilter name "image" (some ch)) := by
  have hcoll : store.getCollection = .ok store.points.length := by
    simp [VectorStore.getCollection, hreach]
  have hsample : store.scrollPoints none 5 = .ok (store.points.take 5) := by
    simp [VectorStore.scrollPoints, hreach]
  have hloop := imageHashLoop_all_miss store hreach hashes hmiss
  cases hmatch : filterMatches store (Utils.searchFilter name "image" (some ch)) with
  | true =>
    obtain ⟨k, hk, hkpos⟩ := countPoints_match store hreach _ hmatch
    have hscroll : store.scrollPoints
        (some (Utils.searchFilter name "image" (some ch))) k = .ok
        ((store.points.filter (fun p => filterHolds
          (Utils.searchFilter name "image" (some ch)) p.metadata)).take k) := by
      simp [VectorStore.scrollPoints, hreach]
    refine ⟨(true, (store.points.filter (fun p => filterHolds
        (Utils.searchFilter name "image" (some ch)) p.metadata)).take k), ?_, rfl⟩
    cases hashes with
    | nil =>
      simp [Utility.check_document_exists_traced, Utility.imageHashLoop, hcoll,
        hsample, hk, hscroll, hkpos]
    | cons a l =>
      simp [Utility.check_document_exists_traced, hcoll, hloop, hsample, hk,
        hscroll, hkpos]
  | false =>
    have hk := countPoints_no_match store hreach _ hmatch
    refine ⟨(false, []), ?_, rfl⟩
    cases hashes with
    | nil =>
      simp [Utility.check_document_exists_traced, Utility.imageHashLoop, hcoll,
        hsample, hk]
    | cons a l =>
      simp [Utility.check_document_exists_traced, hcoll, hloop, hsample, hk]

/-- Helper: with no `image_hashes` argument the enhanced check makes exactly
one probe, the generic filter, whose match decides the result. -/
lemma traced_no_hashes (store : VectorStore) (hreach : store.reachable = true)
    (name dt : String) (ch : Option String) :
    ∃ res, Utility.check_document_exists_traced store name dt ch none
        = (res, [Utils.searchFilter name dt ch]) ∧
      res.1 = filterMatches store (Utils.searchFilter name dt ch) := by
  have hcoll : store.getCollection = .ok store.points.length := by
    simp [VectorStore.getCollection, hreach]
  have hsample : store.scrollPoints none 5 = .ok (store.points.take 5) := by
    simp [VectorStore.scrollPoints, hreach]
  cases hmatch : filterMatches store (Utils.searchFilter name dt ch) with
  | true =>
    obtain ⟨k, hk, hkpos⟩ := countPoints_match store hreach _ hmatch
    have hscroll : store.scrollPoints (some (Utils.searchFilter name dt ch)) k = .ok
        ((store.points.filter (fun p => filterHolds
          (Utils.searchFilter name dt ch) p.metadata)).take k) := by
      simp [VectorStore.scrollPoints, hreach]
    refine ⟨(true, (store.points.filter (fun p => filterHolds
        (Utils.searchFilter name dt ch) p.metadata)).take k), ?_, rfl⟩
    simp only [Utility.check_document_exists_traced, hcoll, hsample, hk, hscroll,
      hkpos, gt_iff_lt, if_pos, Bool.and_false]
    simp
  | false =>
    have hk := countPoints_no_match store hreach _ hmatch
    refine ⟨(false, []), ?_, rfl⟩
    simp only [Utility.check_document_exists_traced, hcoll, hsample, hk,
      Bool.and_false]
    simp

/-- C4: the image duplicate detection of the enhanced pipeline checks its
tiers in priority order and the first matching tier wins.  (1) If some
per-image fingerprint matches, the result is a hit and only tier-1 filters
are ever probed.  (2) If no per-image fingerprint matches but the
whole-document fingerprint does, the result is a hit, the probe trace is
exactly the tier-1 probes followed by one tier-2 probe, and no source-name
(tier-3) probe happens.  (3) Only when both fingerprint tiers miss is the
source-name tier probed (the caller re-probes tier 2 once on the way), and
its match decides the result. -/
theorem image_dedup_tier_priority (store : VectorStore) (name ch : String)
    (hashes : List (String × Utility.ImgHashInfo))
    (hreach : store.reachable = true) (hch : ch ≠ "") :
    ((∃ ih ∈ hashes,
        filterMatches store (Utility.individualFilter ih.2.hash) = true) →
      (Utility.image_dedup_sequence store name ch hashes).1.1 = true ∧
      ∀ f ∈ (Utility.image_dedup_sequence store name ch hashes).2, tierOf f = 1) ∧
    ((∀ ih ∈ hashes,
        filterMatches store (Utility.individualFilter ih.2.hash) = false) →
      filterMatches store (Utils.searchFilter name "image" (some ch)) = true →
      (Utility.image_dedup_sequence store name ch hashes).1.1 = true ∧
      (Utility.image_dedup_sequence store name ch hashes).2
        = hashes.map (fun ih => Utility.individualFilter ih.2.hash)
          ++ [Utils.searchFilter name "image" (some ch)] ∧
      ∀ f ∈ (Utility.image_dedup_sequence store name ch hashes).2, tierOf f ≤ 2) ∧
    ((∀ ih ∈ hashes,
        filterMatches store (Utility.individualFilter ih.2.hash) = false) →
      filterMatches store (Utils.searchFilter name "image" (some ch)) = false →
      (Utility.image_dedup_sequence store name ch hashes).1.1
        = filterMatches store (Utils.searchFilter name "image" none) ∧
      (Utility.image_dedup_sequence store name ch hashes).2
        = hashes.map (fun ih => Utility.individualFilter ih.2.hash)
          ++ [Utils.searchFilter name "image" (some ch),
              Utils.searchFilter name "image" (some ch),
              Utils.searchFilter name "image" none]) := by
  refine ⟨?_, ?_, ?_⟩
  · intro hhit
    obtain ⟨pts, t, hc1, ht⟩ := traced_tier1_hit store hreach name ch hashes hhit
    constructor
    · simp [Utility.image_dedup_sequence, hc1]
    · intro f hf
      have htr : (Utility.image_dedup_sequence store name ch hashes).2 = t := by
        simp [Utility.image_dedup_sequence, hc1]
      rw [htr] at hf
      exact ht f hf
  · intro hmiss hgen
    obtain ⟨res, hc1, hres⟩ := traced_after_misses store hreach name ch hashes hmiss
    have hrtrue : res.1 = true := by rw [hres, hgen]
    refine ⟨?_, ?_, ?_⟩
    · simp [Utility.image_dedup_sequence, hc1, hrtrue]
    · simp [Utility.image_dedup_sequence, hc1, hrtrue]
    · intro f hf
      have htr : (Utility.image_dedup_sequence store name ch hashes).2
          = hashes.map (fun ih => Utility.individualFilter ih.2.hash)
            ++ [Utils.searchFilter name "image" (some ch)] := by
        simp [Utility.image_dedup_sequence, hc1, hrtrue]
      rw [htr] at hf
      rcases List.mem_append.1 hf with h1 | h2
      · obtain ⟨x, _, hfx⟩ := List.mem_map.1 h1
        rw [← hfx, tierOf_individual]
        omega
      · simp only [List.mem_singleton] at h2
        rw [h2, tierOf_searchFilter_hash name "image" ch hch]
  · intro hmiss hgenmiss
    obtain ⟨res, hc1, hres⟩ := traced_after_misses store hreach name ch hashes hmiss
    have hrfalse : res.1 = false := by rw [hres, hgenmiss]
    obtain ⟨res2, hc2, hres2⟩ := traced_no_hashes store hreach name "image" (some ch)
    have hr2false : res2.1 = false := by rw [hres2, hgenmiss]
    obtain ⟨res3, hc3, hres3⟩ := traced_no_hashes store hreach name "image" none
    constructor
    · simp [Utility.image_dedup_sequence, hc1, hrfalse, hc2, hr2false, hc3, hres3]
    · simp [Utility.image_dedup_sequence, hc1, hrfalse, hc2, hr2false, hc3]

/-- Witness for C4: a reachable store holding one image unit with per-image
fingerprint `"h1"`, queried with content hash `"F"` and the fingerprint list
`[("img1", "h1")]`. -/
theorem image_dedup_tier_priority_witness :
    ((∃ ih ∈ [("img1", Utility.ImgHashInfo.mk "h1")],
        filterMatches
          ⟨[⟨"i0", [("content_type", PyVal.str "image"),
                    ("image_content_hash", PyVal.str "h1")]⟩], true⟩
          (Utility.individualFilter ih.2.hash) = true) →
      (Utility.image_dedup_sequence
        ⟨[⟨"i0", [("content_type", PyVal.str "image"),
                  ("image_content_hash", PyVal.str "h1")]⟩], true⟩
        "doc.pdf" "F" [("img1", Utility.ImgHashInfo.mk "h1")]).1.1 = true ∧
      ∀ f ∈ (Utility.image_dedup_sequence
        ⟨[⟨"i0", [("content_type", PyVal.str "image"),
                  ("image_content_hash", PyVal.str "h1")]⟩], true⟩
        "doc.pdf" "F" [("img1", Utility.ImgHashInfo.mk "h1")]).2, tierOf f = 1) ∧
    ((∀ ih ∈ [("img1", Utility.ImgHashInfo.mk "h1")],
        filterMatches
          ⟨[⟨"i0", [("content_type", PyVal.str "image"),
                    ("image_content_hash", PyVal.str "h1")]⟩], true⟩
          (Utility.individualFilter ih.2.hash) = false) →
      filterMatches
          ⟨[⟨"i0", [("content_type", PyVal.str "image"),
                    ("image_content_hash", PyVal.str "h1")]⟩], true⟩
          (Utils.searchFilter "doc.pdf" "image" (some "F")) = true →
      (Utility.image_dedup_sequence
        ⟨[⟨"i0", [("content_type", PyVal.str "image"),
                  ("image_content_hash", PyVal.str "h1")]⟩], true⟩
        "doc.pdf" "F" [("img1", Utility.ImgHashInfo.mk "h1")]).1.1 = true ∧
      (Utility.image_dedup_sequence
        ⟨[⟨"i0", [("content_type", PyVal.str "image"),
                  ("image_content_hash", PyVal.str "h1")]⟩], true⟩
        "doc.pdf" "F" [("img1", Utility.ImgHashInfo.mk "h1")]).2
        = [("img1", Utility.ImgHashInfo.mk "h1")].map
            (fun ih => Utility.individualFilter ih.2.hash)
          ++ [Utils.searchFilter "doc.pdf" "image" (some "F")] ∧
      ∀ f ∈ (Utility.image_dedup_sequence
        ⟨[⟨"i0", [("content_type", PyVal.str "image"),
                  ("image_content_hash", PyVal.str "h1")]⟩], true⟩
        "doc.pdf" "F" [("img1", Utility.ImgHashInfo.mk "h1")]).2, tierOf f ≤ 2) ∧
    ((∀ ih ∈ [("img1", Utility.ImgHashInfo.mk "h1")],
        filterMatches
          ⟨[⟨"i0", [("content_type", PyVal.str "image"),
                    ("image_content_hash", PyVal.str "h1")]⟩], true⟩
          (Utility.individualFilter ih.2.hash) = false) →
      filterMatches
          ⟨[⟨"i0", [("content_type", PyVal.str "image"),
                    ("image_content_hash", PyVal.str "h1")]⟩], true⟩
          (Utils.searchFilter "doc.pdf" "image" (some "F")) = false →
      (Utility.image_dedup_sequence
        ⟨[⟨"i0", [("content_type", PyVal.str "image"),
                  ("image_content_hash", PyVal.str "h1")]⟩], true⟩
        "doc.pdf" "F" [("img1", Utility.ImgHashInfo.mk "h1")]).1.1
        = filterMatches
            ⟨[⟨"i0", [("content_type", PyVal.str "image"),
                      ("image_content_hash", PyVal.str "h1")]⟩], true⟩
            (Utils.searchFilter "doc.pdf" "image" none) ∧
      (Utility.image_dedup_sequence
        ⟨[⟨"i0", [("content_type", PyVal.str "image"),
                  ("image_content_hash", PyVal.str "h1")]⟩], true⟩
        "doc.pdf" "F" [("img1", Utility.ImgHashInfo.mk "h1")]).2
        = [("img1", Utility.ImgHashInfo.mk "h1")].map
            (fun ih => Utility.individualFilter ih.2.hash)
          ++ [Utils.searchFilter "doc.pdf" "image" (some "F"),
              Utils.searchFilter "doc.pdf" "image" (some "F"),
              Utils.searchFilter "doc.pdf" "image" none]) :=
  image_dedup_tier_priority
    ⟨[⟨"i0", [("content_type", PyVal.str "image"),
              ("image_content_hash", PyVal.str "h1")]⟩], true⟩
    "doc.pdf" "F" [("img1", Utility.ImgHashInfo.mk "h1")] rfl (by decide)
